import Mathlib

/-!
Shallow embedding of the FSM core of the Contraining-LLMs-With-FSMs
repository: the digit-by-digit HTTP status-code automaton
(src/fsm/http_fsm.py) and the token-by-token LaTeX math automaton
(src/fsm/latex_math_fsm.py), together with theorems settling the
specification claims about them.

Embedding conventions:
- Python strings are Lean `String`s; `str.isdigit`/`str.isalpha`/
  whitespace tests use the ASCII `Char` predicates, and string
  primitives (strip, startswith, sorting) are implemented by
  structurally recursive functions over the character list so that the
  kernel can evaluate them.
- Python integers are `Int` (the structural counters can go negative);
  the HTTP status codes are `Nat`.
- A mutating method `m(self, x)` becomes a function
  `m : FSM → X → Bool × FSM` returning the Python return value together
  with the post-call object state.
- The state-name strings of the Python code become a finite inductive
  type with identically named constructors (the code only ever assigns
  these fixed names).
-/

set_option maxHeartbeats 1000000
set_option maxRecDepth 100000

/-- Python str.isdigit on the character list of an ASCII string:
nonempty and all digits. -/
def pyIsdigit (s : String) : Bool :=
  s.data.length > 0 && s.data.all Char.isDigit

/-- Python str.strip(): drop whitespace from both ends. -/
def pyStrip (s : String) : String :=
  String.mk ((((s.data).dropWhile Char.isWhitespace).reverse.dropWhile
    Char.isWhitespace).reverse)

/-- Python str.startswith. -/
def pyStartswith (s pre : String) : Bool :=
  pre.data.isPrefixOf s.data

/-- Python int() on a decimal digit string. -/
def pyInt (s : String) : Nat :=
  s.data.foldl (fun acc c => acc * 10 + (c.toNat - 48)) 0

/-- Lexicographic boolean comparison on character lists, used to model
Python sorted() on lists of strings. -/
def charsLe : List Char → List Char → Bool
  | [], _ => true
  | _ :: _, [] => false
  | a :: as, b :: bs =>
      if a < b then true else if b < a then false else charsLe as bs

/-- Insert a string into a lexicographically sorted list of strings. -/
def insortStr (x : String) : List String → List String
  | [] => [x]
  | y :: ys => if charsLe x.data y.data then x :: y :: ys else y :: insortStr x ys

/-- Python sorted() on a list of strings (insertion sort; the inputs in
this development are duplicate-free one-character strings, for which any
correct sort agrees). -/
def sortedStr : List String → List String
  | [] => []
  | x :: xs => insortStr x (sortedStr xs)

namespace HTTP

/-- State names assigned by http_fsm.py: start, first_digit,
second_digit, third_digit. -/
inductive HState where
  | start
  | first_digit
  | second_digit
  | third_digit
deriving DecidableEq, Repr

/-- The mutable fields of class HTTPCodeFSM. -/
structure HTTPCodeFSM where
  state : HState
  current_code : String
  path : List HState
deriving DecidableEq, Repr

/-- HTTPCodeFSM.VALID_CODES, in source order. -/
def VALID_CODES : List Nat :=
  [100, 101, 102, 103,
   200, 201, 202, 203, 204, 205, 206, 207, 208, 226,
   300, 301, 302, 303, 304, 305, 307, 308,
   400, 401, 402, 403, 404, 405, 406, 407, 408, 409,
   410, 411, 412, 413, 414, 415, 416, 417, 418, 421,
   422, 423, 424, 425, 426, 428, 429, 431, 451,
   500, 501, 502, 503, 504, 505, 506, 507, 508, 510, 511]

/-- HTTPCodeFSM.reset / __init__: state "start", empty code, path ["start"]. -/
def reset : HTTPCodeFSM := ⟨HState.start, "", [HState.start]⟩

/-- HTTPCodeFSM.get_valid_first_digits. -/
def get_valid_first_digits : List String := ["1", "2", "3", "4", "5"]

/-- HTTPCodeFSM.get_valid_second_digits. -/
def get_valid_second_digits (first_digit : String) : List String :=
  if first_digit ∈ ["1", "2", "3", "4", "5"] then
    (List.range 10).map (fun i => toString i)
  else []

/-- str(code)[2] as a one-character string (every VALID_CODES member has
a 3-character decimal representation, so index 2 is in range). -/
def third_digit_of (code : Nat) : String :=
  String.singleton ((toString code).data.getD 2 ' ')

/-- The collection loop of get_valid_third_digits: walk the code table,
keep the third digit of every code whose string starts with first_two,
skipping duplicates already accumulated. -/
def collect_thirds (first_two : String) : List Nat → List String → List String
  | [], acc => acc
  | code :: rest, acc =>
      if pyStartswith (toString code) first_two then
        if third_digit_of code ∈ acc then collect_thirds first_two rest acc
        else collect_thirds first_two rest (acc ++ [third_digit_of code])
      else collect_thirds first_two rest acc

/-- HTTPCodeFSM.get_valid_third_digits: collected third digits, sorted. -/
def get_valid_third_digits (first_two : String) : List String :=
  sortedStr (collect_thirds first_two VALID_CODES [])

/-- HTTPCodeFSM.process_digit. -/
def process_digit (fsm : HTTPCodeFSM) (digit : String) : Bool × HTTPCodeFSM :=
  if ¬ pyIsdigit digit then (false, fsm)
  else match fsm.state with
    | HState.start =>
        if digit ∈ get_valid_first_digits then
          (true, ⟨HState.first_digit, digit, fsm.path ++ [HState.first_digit]⟩)
        else (false, fsm)
    | HState.first_digit =>
        if digit ∈ get_valid_second_digits fsm.current_code then
          (true, ⟨HState.second_digit, fsm.current_code ++ digit,
                         fsm.path ++ [HState.second_digit]⟩)
        else (false, fsm)
    | HState.second_digit =>
        if digit ∈ get_valid_third_digits fsm.current_code then
          (true, ⟨HState.third_digit, fsm.current_code ++ digit,
                         fsm.path ++ [HState.third_digit]⟩)
        else (false, fsm)
    | HState.third_digit => (false, fsm)

/-- The per-character loop of process_input: feed each character as a
one-character string, short-circuiting on the first rejection. -/
def process_chars (fsm : HTTPCodeFSM) : List Char → Bool × HTTPCodeFSM
  | [] => (true, fsm)
  | c :: rest =>
      match process_digit fsm (String.singleton c) with
      | (true, fsm2) => process_chars fsm2 rest
      | (false, fsm2) => (false, fsm2)

/-- HTTPCodeFSM.process_input after the initial strip() has been applied. -/
def process_input_trimmed (fsm : HTTPCodeFSM) (input_str : String) :
    Bool × HTTPCodeFSM :=
  if input_str.data.length ≠ 3 ∨ ¬ pyIsdigit input_str then (false, fsm)
  else
    match process_chars fsm input_str.data with
    | (false, fsm2) => (false, fsm2)
    | (true, fsm2) =>
        if fsm2.state = HState.third_digit ∧ fsm2.current_code.data.length = 3 then
          (decide (pyInt fsm2.current_code ∈ VALID_CODES), fsm2)
        else (false, fsm2)

/-- HTTPCodeFSM.process_input: strip, require exactly 3 digits, feed the
digits one at a time, then check membership in VALID_CODES. -/
def process_input (fsm : HTTPCodeFSM) (input_str : String) :
    Bool × HTTPCodeFSM :=
  process_input_trimmed fsm (pyStrip input_str)

/-- HTTPCodeFSM.is_complete. -/
def is_complete (fsm : HTTPCodeFSM) : Bool := fsm.state = HState.third_digit

/-- HTTPCodeFSM.get_current_possibilities. -/
def get_current_possibilities (fsm : HTTPCodeFSM) : List String :=
  match fsm.state with
  | HState.start => get_valid_first_digits
  | HState.first_digit => get_valid_second_digits fsm.current_code
  | HState.second_digit => get_valid_third_digits fsm.current_code
  | HState.third_digit => []

/-- Fold a list of inputs through process_digit, keeping the post-call
state whether or not each call accepted. -/
def run (fsm : HTTPCodeFSM) : List String → HTTPCodeFSM
  | [] => fsm
  | d :: rest => run (process_digit fsm d).2 rest

/-- The per-call boolean results of feeding a list of inputs, paired with
the final configuration. -/
def run_trace (fsm : HTTPCodeFSM) : List String → List Bool × HTTPCodeFSM
  | [] => ([], fsm)
  | d :: rest =>
      match process_digit fsm d with
      | (b, fsm2) =>
          match run_trace fsm2 rest with
          | (bs, fsm3) => (b :: bs, fsm3)

end HTTP

namespace LaTeX

/-- State names assigned by latex_math_fsm.py.  The docstring also
mentions command_name and matrix_mode, but no code path ever assigns
them, so they are omitted. -/
inductive LState where
  | start
  | math_mode
  | command
  | brace_open
  | content
  | superscript
  | subscript
  | fraction_num
  | fraction_den
  | end_state
deriving DecidableEq, Repr

/-- The two values ever assigned to math_mode_type ("inline" and
"display"). -/
inductive MathModeType where
  | inline
  | display
deriving DecidableEq, Repr

/-- The mutable fields of class LaTeXMathFSM.  The Python depth counters
are unbounded signed integers, hence `Int`. -/
structure LaTeXMathFSM where
  state : LState
  current_expression : String
  path : List LState
  brace_depth : Int
  bracket_depth : Int
  paren_depth : Int
  math_mode_type : Option MathModeType
  command_buffer : String
  environment_stack : List String
deriving DecidableEq, Repr

/-- LaTeXMathFSM.VALID_COMMANDS, in source order (a Python set literal;
only membership is ever consulted). -/
def VALID_COMMANDS : List String :=
  ["frac", "sqrt", "sum", "int", "lim", "prod",
   "alpha", "beta", "gamma", "delta", "epsilon", "zeta", "eta", "theta",
   "iota", "kappa", "lambda", "mu", "nu", "xi", "pi", "rho", "sigma",
   "tau", "upsilon", "phi", "chi", "psi", "omega",
   "Alpha", "Beta", "Gamma", "Delta", "Theta", "Lambda", "Xi", "Pi",
   "Sigma", "Upsilon", "Phi", "Psi", "Omega",
   "cdot", "times", "div", "pm", "mp", "ast", "star", "circ",
   "bullet", "cap", "cup", "sqcap", "sqcup", "vee", "wedge",
   "leq", "geq", "neq", "equiv", "approx", "sim", "simeq", "cong",
   "propto", "parallel", "perp", "subset", "supset", "subseteq", "supseteq",
   "in", "ni", "notin",
   "rightarrow", "leftarrow", "leftrightarrow", "Rightarrow", "Leftarrow",
   "Leftrightarrow", "mapsto", "longmapsto",
   "left", "right", "big", "Big", "bigg", "Bigg",
   "sin", "cos", "tan", "sec", "csc", "cot", "sinh", "cosh", "tanh",
   "arcsin", "arccos", "arctan", "ln", "log", "exp", "det", "dim",
   "ker", "hom", "deg", "gcd",
   "begin", "end", "matrix", "pmatrix", "bmatrix", "vmatrix", "Vmatrix",
   "array", "align", "equation", "split",
   "text", "mathbf", "mathit", "mathcal", "mathbb", "mathfrak",
   "mathrm", "boldsymbol",
   "quad", "qquad", ",", ";", ":", "!", "enspace", "thinspace",
   "infty", "nabla", "partial", "emptyset", "exists", "forall",
   "therefore", "because", "dots", "ldots", "cdots", "vdots", "ddots"]

/-- LaTeXMathFSM.VALID_NUMBERS: set("0123456789"), i.e. the ten
one-character digit strings. -/
def VALID_NUMBERS : List String := "0123456789".data.map String.singleton

/-- LaTeXMathFSM.VALID_VARIABLES: the 52 one-character letter strings. -/
def VALID_VARIABLES : List String :=
  "abcdefghijklmnopqrstuvwxyzABCDEFGHIJKLMNOPQRSTUVWXYZ".data.map
    String.singleton

/-- LaTeXMathFSM.VALID_OPERATORS (the last entry is the apostrophe
character, written via its code point). -/
def VALID_OPERATORS : List String :=
  ["+", "-", "=", "<", ">", "*", "/", "!", "?", ".", ",", ";", ":",
   String.singleton (Char.ofNat 39)]

/-- LaTeXMathFSM.reset / __init__. -/
def reset : LaTeXMathFSM :=
  ⟨LState.start, "", [LState.start], 0, 0, 0, none, "", []⟩

/-- The inner while loop of tokenize that scans a maximal run of
letters: returns (run, remaining characters). -/
def takeAlpha : List Char → List Char × List Char
  | [] => ([], [])
  | c :: cs =>
      if c.isAlpha then
        ((takeAlpha cs).1.cons c, (takeAlpha cs).2)
      else ([], c :: cs)

/-- The scanning loop of LaTeXMathFSM.tokenize over the remaining
characters.  Each loop iteration consumes at least one character, so
the loop is run with the string length as fuel (the fuel-exhausted
case is unreachable from tokenize).  The source also has two later
elif-branches testing char == backslash for the two-character tokens
backslash-bracket; they are unreachable because the first branch
already matches every backslash, and are therefore not represented. -/
def tokenizeAux : Nat → List Char → List String
  | 0, _ => []
  | _, [] => []
  | fuel + 1, c :: rest =>
      if c.isWhitespace then tokenizeAux fuel rest
      else if c = '\\' then
        match rest with
        | [] => [String.singleton c]
        | d :: rest2 =>
            if d.isAlpha then
              String.mk ('\\' :: (takeAlpha rest).1)
                :: tokenizeAux fuel (takeAlpha rest).2
            else String.mk ['\\', d] :: tokenizeAux fuel rest2
      else if c = '$' then
        match rest with
        | '$' :: rest2 => "$$" :: tokenizeAux fuel rest2
        | _ => String.singleton c :: tokenizeAux fuel rest
      else String.singleton c :: tokenizeAux fuel rest

/-- LaTeXMathFSM.tokenize. -/
def tokenize (latex_str : String) : List String :=
  tokenizeAux latex_str.data.length latex_str.data

/-- LaTeXMathFSM._is_math_mode_end. -/
def is_math_mode_end (fsm : LaTeXMathFSM) (token : String) : Bool :=
  if fsm.math_mode_type = some MathModeType.inline ∧ token = "$" then true
  else if fsm.math_mode_type = some MathModeType.display ∧
      (token = "$$" ∨ token = "\\]") then true
  else false

/-- LaTeXMathFSM._process_start_state. -/
def process_start_state (fsm : LaTeXMathFSM) (token : String) :
    Bool × LaTeXMathFSM :=
  if token = "$" then
    (true, { fsm with
               state := LState.math_mode
               math_mode_type := some MathModeType.inline
               path := fsm.path ++ [LState.math_mode] })
  else if token = "$$" then
    (true, { fsm with
               state := LState.math_mode
               math_mode_type := some MathModeType.display
               path := fsm.path ++ [LState.math_mode] })
  else if token = "\\[" then
    (true, { fsm with
               state := LState.math_mode
               math_mode_type := some MathModeType.display
               path := fsm.path ++ [LState.math_mode] })
  else (false, fsm)

/-- The parenthesis/bracket block at the end of
LaTeXMathFSM._process_math_mode (reached when none of the earlier
blocks returned). -/
def process_math_mode_parens (fsm : LaTeXMathFSM) (token : String) :
    Bool × LaTeXMathFSM :=
  if token ∈ ["(", "[", "|"] then
    if token = "(" then
      (true, { fsm with paren_depth := fsm.paren_depth + 1 })
    else if token = "[" then
      (true, { fsm with bracket_depth := fsm.bracket_depth + 1 })
    else (true, fsm)
  else if token ∈ [")", "]", "|"] then
    if token = ")" ∧ fsm.paren_depth > 0 then
      (true, { fsm with paren_depth := fsm.paren_depth - 1 })
    else if token = "]" ∧ fsm.bracket_depth > 0 then
      (true, { fsm with bracket_depth := fsm.bracket_depth - 1 })
    else if token = "|" then (true, fsm)
    else (false, fsm)
  else (false, fsm)

/-- The blocks of LaTeXMathFSM._process_math_mode after the command
block: single characters, scripts, braces, then the
parenthesis/bracket block.  Reached either when the token is not a
backslash command or when its command name is not in the table (the
Python code falls through in both cases). -/
def process_math_mode_rest (fsm : LaTeXMathFSM) (token : String) :
    Bool × LaTeXMathFSM :=
  if token ∈ VALID_VARIABLES ∨ token ∈ VALID_NUMBERS ∨
      token ∈ VALID_OPERATORS then (true, fsm)
  else if token = "^" then
    (true, { fsm with
               state := LState.superscript
               path := fsm.path ++ [LState.superscript] })
  else if token = "_" then
    (true, { fsm with
               state := LState.subscript
               path := fsm.path ++ [LState.subscript] })
  else if token = "\x7b" then
    (true, { fsm with
               brace_depth := fsm.brace_depth + 1
               state := LState.content
               path := fsm.path ++ [LState.content] })
  else if token = "\x7d" then
    if fsm.brace_depth > 0 then
      (true, { fsm with brace_depth := fsm.brace_depth - 1 })
    else process_math_mode_parens fsm token
  else process_math_mode_parens fsm token

/-- LaTeXMathFSM._process_math_mode. -/
def process_math_mode (fsm : LaTeXMathFSM) (token : String) :
    Bool × LaTeXMathFSM :=
  if is_math_mode_end fsm token then
    (true, { fsm with
               state := LState.end_state
               path := fsm.path ++ [LState.end_state] })
  else if pyStartswith token "\\" = true ∧ token.data.length > 1 then
    if String.mk token.data.tail ∈ VALID_COMMANDS then
      if String.mk token.data.tail = "frac" then
        (true, { fsm with
                   state := LState.fraction_num
                   path := fsm.path ++ [LState.fraction_num] })
      else if String.mk token.data.tail ∈ ["begin"] then
        (true, { fsm with
                   state := LState.command
                   command_buffer := String.mk token.data.tail
                   path := fsm.path ++ [LState.command] })
      else (true, fsm)
    else process_math_mode_rest fsm token
  else process_math_mode_rest fsm token

/-- LaTeXMathFSM._process_command_state. -/
def process_command_state (fsm : LaTeXMathFSM) (token : String) :
    Bool × LaTeXMathFSM :=
  if token = "\x7b" then
    (true, { fsm with
               brace_depth := fsm.brace_depth + 1
               state := LState.brace_open
               path := fsm.path ++ [LState.brace_open] })
  else (false, fsm)

/-- LaTeXMathFSM._process_content_state. -/
def process_content_state (fsm : LaTeXMathFSM) (token : String) :
    Bool × LaTeXMathFSM :=
  if token = "\x7d" then
    if fsm.brace_depth - 1 = 0 then
      (true, { fsm with
                 brace_depth := fsm.brace_depth - 1
                 state := LState.math_mode
                 path := fsm.path ++ [LState.math_mode] })
    else (true, { fsm with brace_depth := fsm.brace_depth - 1 })
  else if token = "\x7b" then
    (true, { fsm with brace_depth := fsm.brace_depth + 1 })
  else if token ∈ VALID_VARIABLES ∨ token ∈ VALID_NUMBERS ∨
      token ∈ VALID_OPERATORS ∨ pyStartswith token "\\" = true then
    (true, fsm)
  else (false, fsm)

/-- LaTeXMathFSM._process_brace_open_state.  On any token other than a
closing brace the handler first moves to content (appending to the
path) and then delegates to the content handler on the mutated state. -/
def process_brace_open_state (fsm : LaTeXMathFSM) (token : String) :
    Bool × LaTeXMathFSM :=
  if token = "\x7d" then
    (true, { fsm with
               brace_depth := fsm.brace_depth - 1
               state := LState.math_mode
               path := fsm.path ++ [LState.math_mode] })
  else
    process_content_state
      { fsm with
          state := LState.content
          path := fsm.path ++ [LState.content] } token

/-- LaTeXMathFSM._process_superscript_state. -/
def process_superscript_state (fsm : LaTeXMathFSM) (token : String) :
    Bool × LaTeXMathFSM :=
  if token = "\x7b" then
    (true, { fsm with
               brace_depth := fsm.brace_depth + 1
               state := LState.content
               path := fsm.path ++ [LState.content] })
  else if token ∈ VALID_VARIABLES ∨ token ∈ VALID_NUMBERS then
    (true, { fsm with
               state := LState.math_mode
               path := fsm.path ++ [LState.math_mode] })
  else (false, fsm)

/-- LaTeXMathFSM._process_subscript_state. -/
def process_subscript_state (fsm : LaTeXMathFSM) (token : String) :
    Bool × LaTeXMathFSM :=
  if token = "\x7b" then
    (true, { fsm with
               brace_depth := fsm.brace_depth + 1
               state := LState.content
               path := fsm.path ++ [LState.content] })
  else if token ∈ VALID_VARIABLES ∨ token ∈ VALID_NUMBERS then
    (true, { fsm with
               state := LState.math_mode
               path := fsm.path ++ [LState.math_mode] })
  else (false, fsm)

/-- LaTeXMathFSM._process_fraction_num_state. -/
def process_fraction_num_state (fsm : LaTeXMathFSM) (token : String) :
    Bool × LaTeXMathFSM :=
  if token = "\x7b" then
    (true, { fsm with
               brace_depth := fsm.brace_depth + 1
               state := LState.content
               path := fsm.path ++ [LState.content] })
  else (false, fsm)

/-- LaTeXMathFSM._process_fraction_den_state. -/
def process_fraction_den_state (fsm : LaTeXMathFSM) (token : String) :
    Bool × LaTeXMathFSM :=
  if token = "\x7b" then
    (true, { fsm with
               brace_depth := fsm.brace_depth + 1
               state := LState.content
               path := fsm.path ++ [LState.content] })
  else (false, fsm)

/-- LaTeXMathFSM.process_token: dispatch on the current state; the
final else (reached in end_state) rejects. -/
def process_token (fsm : LaTeXMathFSM) (token : String) :
    Bool × LaTeXMathFSM :=
  match fsm.state with
  | LState.start => process_start_state fsm token
  | LState.math_mode => process_math_mode fsm token
  | LState.command => process_command_state fsm token
  | LState.brace_open => process_brace_open_state fsm token
  | LState.content => process_content_state fsm token
  | LState.superscript => process_superscript_state fsm token
  | LState.subscript => process_subscript_state fsm token
  | LState.fraction_num => process_fraction_num_state fsm token
  | LState.fraction_den => process_fraction_den_state fsm token
  | LState.end_state => (false, fsm)

/-- LaTeXMathFSM.is_complete. -/
def is_complete (fsm : LaTeXMathFSM) : Bool :=
  decide (fsm.state = LState.end_state ∧ fsm.brace_depth = 0 ∧
    fsm.bracket_depth = 0 ∧ fsm.paren_depth = 0)

/-- The token loop of LaTeXMathFSM.process_input: fold process_token,
short-circuiting on the first rejection. -/
def process_tokens (fsm : LaTeXMathFSM) : List String → Bool × LaTeXMathFSM
  | [] => (true, fsm)
  | t :: rest =>
      match process_token fsm t with
      | (true, fsm2) => process_tokens fsm2 rest
      | (false, fsm2) => (false, fsm2)

/-- LaTeXMathFSM.process_input: tokenize, fold, then report
completeness (note: no reset happens inside this method). -/
def process_input (fsm : LaTeXMathFSM) (latex_str : String) :
    Bool × LaTeXMathFSM :=
  match process_tokens fsm (tokenize latex_str) with
  | (true, fsm2) => (is_complete fsm2, fsm2)
  | (false, fsm2) => (false, fsm2)

/-- LaTeXMathFSM.get_valid_commands. -/
def get_valid_commands : List String :=
  VALID_COMMANDS.map (fun cmd => "\\" ++ cmd)

/-- LaTeXMathFSM.get_current_possibilities.  The Python lists obtained
from the character sets come in set-iteration order; this embedding
fixes the source-text order (the claims about this function only
concern membership). -/
def get_current_possibilities (fsm : LaTeXMathFSM) : List String :=
  match fsm.state with
  | LState.start => ["$", "$$", "\\["]
  | LState.math_mode =>
      VALID_VARIABLES ++ VALID_NUMBERS ++ VALID_OPERATORS ++
      get_valid_commands ++
      ["^", "_", "\x7b", "\x7d", "(", ")", "[", "]"] ++
      (match fsm.math_mode_type with
       | some MathModeType.inline => ["$"]
       | some MathModeType.display => ["$$", "\\]"]
       | none => [])
  | LState.superscript => VALID_VARIABLES ++ VALID_NUMBERS ++ ["\x7b"]
  | LState.subscript => VALID_VARIABLES ++ VALID_NUMBERS ++ ["\x7b"]
  | LState.command => ["\x7b"]
  | LState.brace_open =>
      VALID_VARIABLES ++ VALID_NUMBERS ++ VALID_OPERATORS ++
      get_valid_commands ++ ["\x7b", "\x7d", "^", "_"]
  | LState.content =>
      VALID_VARIABLES ++ VALID_NUMBERS ++ VALID_OPERATORS ++
      get_valid_commands ++ ["\x7b", "\x7d", "^", "_"]
  | LState.fraction_num => ["\x7b"]
  | LState.fraction_den => ["\x7b"]
  | LState.end_state => []

/-- Fold a list of tokens through process_token, keeping the post-call
state whether or not each call accepted. -/
def run (fsm : LaTeXMathFSM) : List String → LaTeXMathFSM
  | [] => fsm
  | t :: rest => run (process_token fsm t).2 rest

/-- The per-call boolean results of feeding a token list, paired with
the final configuration. -/
def run_trace (fsm : LaTeXMathFSM) : List String → List Bool × LaTeXMathFSM
  | [] => ([], fsm)
  | t :: rest =>
      match process_token fsm t with
      | (b, fsm2) =>
          match run_trace fsm2 rest with
          | (bs, fsm3) => (b :: bs, fsm3)

end LaTeX

/-! ### Auxiliary definitions used by the verification -/

/-- The ten ASCII digit characters. -/
def digitChars : List Char := ['0', '1', '2', '3', '4', '5', '6', '7', '8', '9']

namespace LaTeX

/-- The structural tokens excluded from the amended possibility-set
soundness statement: the three closers (rejected in math mode when the
matching depth counter is zero) and the two script markers (listed but
rejected in the content and brace_open states). -/
def excludedPossibilities : List String := ["\x7d", ")", "]", "^", "_"]

/-- A fixed configuration used to state the closed possibility-set
checks: the given state and math-mode flavor with all other fields at
their reset values. -/
def stCfg (st : LState) (mt : Option MathModeType) : LaTeXMathFSM :=
  ⟨st, "", [LState.start], 0, 0, 0, mt, "", []⟩

/-- Specification-style restatement of the tokenizer, written from the
specification text: whitespace is skipped; a backslash followed by a
maximal nonempty run of letters becomes one command token; a backslash
followed by a non-letter becomes a two-character token; a double dollar
becomes a single token; every other character becomes its own token; a
trailing lone backslash becomes the one-character backslash token; the
empty string yields the empty token sequence. -/
def tokenize_spec : List Char → List String
  | [] => []
  | c :: rest =>
      if c.isWhitespace then tokenize_spec rest
      else if c = '\\' then
        match h : rest with
        | [] => ["\\"]
        | d :: rest2 =>
            if d.isAlpha then
              String.mk ('\\' :: rest.takeWhile Char.isAlpha) ::
                tokenize_spec (rest.dropWhile Char.isAlpha)
            else String.mk ['\\', d] :: tokenize_spec rest2
      else if c = '$' ∧ rest.head? = some '$' then
        "$$" :: tokenize_spec rest.tail
      else String.singleton c :: tokenize_spec rest
termination_by l => l.length
decreasing_by
  all_goals simp_wf
  all_goals try omega
  all_goals have hd : (rest.dropWhile Char.isAlpha).length ≤ rest.length := (List.dropWhile_sublist Char.isAlpha).length_le
  all_goals rw [h] at hd ⊢
  all_goals simp only [List.length_cons] at hd
  all_goals omega

/-- The invariant behind the counter non-negativity claim: all three
depth counters are non-negative, and in the content and brace_open
states the brace depth is at least one (so the unguarded decrements in
those handlers cannot drive it negative). -/
def depthInv (fsm : LaTeXMathFSM) : Prop :=
  0 ≤ fsm.brace_depth ∧ 0 ≤ fsm.bracket_depth ∧ 0 ≤ fsm.paren_depth ∧
  ((fsm.state = LState.content ∨ fsm.state = LState.brace_open) →
    1 ≤ fsm.brace_depth)

end LaTeX

namespace HTTP

/-- The two-digit prefixes reachable in state second_digit: a first
digit from 1 to 5 followed by any digit. -/
def twoCodes : List String :=
  get_valid_first_digits.flatMap
    (fun a => (List.range 10).map (fun i => a ++ toString i))

/-- The decimal strings of the valid status codes, the possible values
of current_code in state third_digit. -/
def threeCodes : List String := VALID_CODES.map (fun c => toString c)

/-- Exhaustive check: processing any three digit characters from a
fresh automaton returns true exactly when their decimal value is a
registered status code. -/
def httpDigitIff : Bool :=
  digitChars.all fun a => digitChars.all fun b => digitChars.all fun c =>
    (process_input_trimmed reset (String.mk [a, b, c])).1
      == decide (pyInt (String.mk [a, b, c]) ∈ VALID_CODES)

/-- Exhaustive check: a valid first digit extended by a valid second
digit lands in twoCodes. -/
def step1ok : Bool :=
  get_valid_first_digits.all fun a =>
    (get_valid_second_digits a).all fun d => decide ((a ++ d) ∈ twoCodes)

/-- Exhaustive check: a twoCodes prefix extended by a valid third digit
is the decimal string of a registered status code. -/
def step2ok : Bool :=
  twoCodes.all fun a =>
    (get_valid_third_digits a).all fun d => decide ((a ++ d) ∈ threeCodes)

/-- Exhaustive check: every threeCodes member is a 3-character digit
string whose value is a registered status code. -/
def threeCodesOk : Bool :=
  threeCodes.all fun s => decide (s.data.length = 3 ∧
    s.data.all Char.isDigit = true ∧ pyInt s ∈ VALID_CODES)

/-- Exhaustive check: the third digit of every registered status code
is a digit string. -/
def thirdsAreDigits : Bool :=
  VALID_CODES.all fun c => pyIsdigit (third_digit_of c)

/-- The invariant for the per-digit filtering claim: the accumulated
code in each state is a prefix built from accepted digits. -/
def codeInv (fsm : HTTPCodeFSM) : Prop :=
  (fsm.state = HState.first_digit →
    fsm.current_code ∈ get_valid_first_digits) ∧
  (fsm.state = HState.second_digit → fsm.current_code ∈ twoCodes) ∧
  (fsm.state = HState.third_digit → fsm.current_code ∈ threeCodes)

end HTTP

/-! ### Helper lemmas -/

theorem mem_digitChars_of_isDigit (c : Char) (h : c.isDigit = true) :
    c ∈ digitChars := by
  have h1 : 48 ≤ c.toNat ∧ c.toNat ≤ 57 := by
    simp [Char.isDigit, Char.le_def] at h
    exact h
  obtain ⟨hlo, hhi⟩ := h1
  have h2 : Char.ofNat c.toNat = c := Char.ofNat_toNat c
  interval_cases hn : c.toNat <;>
    simp [digitChars, ← h2, hn, Char.ofNat]

namespace HTTP

theorem httpDigitIff_true :
    (digitChars.all fun a => digitChars.all fun b => digitChars.all fun c =>
      (process_input_trimmed reset (String.mk [a, b, c])).1
        == decide (pyInt (String.mk [a, b, c]) ∈ VALID_CODES)) = true := by
  decide

theorem step1ok_true : step1ok = true := by decide

theorem step2ok_true : step2ok = true := by decide

theorem threeCodesOk_true : threeCodesOk = true := by decide

theorem thirdsAreDigits_true : thirdsAreDigits = true := by decide

end HTTP

theorem mem_insortStr (x y : String) (l : List String) :
    x ∈ insortStr y l ↔ x = y ∨ x ∈ l := by
  induction l with
  | nil => simp [insortStr]
  | cons z zs ih =>
      simp only [insortStr]
      split_ifs
      · simp
      · simp [ih]
        tauto

theorem mem_sortedStr (x : String) (l : List String) :
    x ∈ sortedStr l ↔ x ∈ l := by
  induction l with
  | nil => simp [sortedStr]
  | cons z zs ih => simp [sortedStr, mem_insortStr, ih]

namespace HTTP

theorem mem_collect_thirds (ft : String) (x : String) :
    ∀ (l : List Nat) (acc : List String), x ∈ collect_thirds ft l acc →
      x ∈ acc ∨ ∃ c ∈ l, x = third_digit_of c := by
  intro l
  induction l with
  | nil => intro acc h; exact Or.inl h
  | cons c cs ih =>
      intro acc h
      simp only [collect_thirds] at h
      split_ifs at h
      · rcases ih acc h with h2 | ⟨c2, hc2, he⟩
        · exact Or.inl h2
        · exact Or.inr ⟨c2, by simp [hc2], he⟩
      · rcases ih (acc ++ [third_digit_of c]) h with h2 | ⟨c2, hc2, he⟩
        · rcases List.mem_append.mp h2 with h3 | h3
          · exact Or.inl h3
          · exact Or.inr ⟨c, by simp, by simpa using h3⟩
        · exact Or.inr ⟨c2, by simp [hc2], he⟩
      · rcases ih acc h with h2 | ⟨c2, hc2, he⟩
        · exact Or.inl h2
        · exact Or.inr ⟨c2, by simp [hc2], he⟩

theorem thirds_isdigit (ft x : String) (h : x ∈ get_valid_third_digits ft) :
    pyIsdigit x = true := by
  have h2 := (mem_sortedStr x _).mp h
  rcases mem_collect_thirds ft x VALID_CODES [] h2 with h3 | ⟨c, hc, he⟩
  · simp at h3
  · have := List.all_eq_true.mp thirdsAreDigits_true c hc
    rw [he]
    exact this

end HTTP


theorem process_digit_third (f : HTTP.HTTPCodeFSM)
    (hf : f.state = HTTP.HState.third_digit) (d : String) :
    HTTP.process_digit f d = (false, f) := by
  unfold HTTP.process_digit
  rw [hf]
  split_ifs <;> rfl

theorem process_chars_third (f : HTTP.HTTPCodeFSM)
    (hf : f.state = HTTP.HState.third_digit) (c : Char) (l : List Char) :
    HTTP.process_chars f (c :: l) = (false, f) := by
  simp only [HTTP.process_chars]
  rw [process_digit_third f hf]

namespace HTTP

theorem codeInv_reset : codeInv reset := by
  refine ⟨?_, ?_, ?_⟩ <;> intro hx <;> simp [reset] at hx

theorem codeInv_step (f : HTTPCodeFSM) (hInv : codeInv f) (d : String) :
    codeInv (process_digit f d).2 := by
  obtain ⟨st, code, path⟩ := f
  obtain ⟨h1, h2, h3⟩ := hInv
  simp only at h1 h2 h3
  cases st with
  | start =>
      unfold process_digit
      dsimp only
      split_ifs with hdig hmem
      · exact ⟨fun _ => hmem, fun hx => HState.noConfusion hx,
               fun hx => HState.noConfusion hx⟩
      · exact ⟨h1, h2, h3⟩
      · exact ⟨h1, h2, h3⟩
  | first_digit =>
      unfold process_digit
      dsimp only
      split_ifs with hdig hmem
      · refine ⟨fun hx => HState.noConfusion hx, fun _ => ?_,
                fun hx => HState.noConfusion hx⟩
        have k : step1ok = true := step1ok_true
        unfold step1ok at k
        simp only [List.all_eq_true] at k
        exact of_decide_eq_true (k code (h1 rfl) d hmem)
      · exact ⟨h1, h2, h3⟩
      · exact ⟨h1, h2, h3⟩
  | second_digit =>
      unfold process_digit
      dsimp only
      split_ifs with hdig hmem
      · refine ⟨fun hx => HState.noConfusion hx,
                fun hx => HState.noConfusion hx, fun _ => ?_⟩
        have k : step2ok = true := step2ok_true
        unfold step2ok at k
        simp only [List.all_eq_true] at k
        exact of_decide_eq_true (k code (h2 rfl) d hmem)
      · exact ⟨h1, h2, h3⟩
      · exact ⟨h1, h2, h3⟩
  | third_digit =>
      unfold process_digit
      dsimp only
      split_ifs with hdig
      · exact ⟨h1, h2, h3⟩
      · exact ⟨h1, h2, h3⟩

theorem codeInv_run (l : List String) :
    ∀ f : HTTPCodeFSM, codeInv f → codeInv (run f l) := by
  induction l with
  | nil => intro f hf; exact hf
  | cons d rest ih => intro f hf; exact ih _ (codeInv_step f hf d)

end HTTP

/-! ### Claim theorems -/

/-- C1 counterexample: the claim as stated is false, because
process_input strips whitespace before validating.  The input " 404"
(a space and three digits) is not a 3-digit-character string, yet
process_input on a fresh automaton returns true for it. -/
theorem http_process_input_strip_counterexample :
    (HTTP.process_input HTTP.reset " 404").1 = true ∧
    ¬ (" 404".data.length = 3 ∧ " 404".data.all Char.isDigit = true) := by
  constructor
  · decide
  · decide

/-- C1 (amended): on a freshly constructed (or freshly reset) HTTP
automaton, process_input(code) returns true iff code, after stripping
leading and trailing whitespace, consists of exactly 3 digit characters
and its decimal value is a member of the fixed VALID_CODES set. -/
theorem http_process_input_valid_code_iff (s : String) :
    (HTTP.process_input HTTP.reset s).1 = true ↔
      ((pyStrip s).data.length = 3 ∧
       (pyStrip s).data.all Char.isDigit = true ∧
       pyInt (pyStrip s) ∈ HTTP.VALID_CODES) := by
  show (HTTP.process_input_trimmed HTTP.reset (pyStrip s)).1 = true ↔ _
  generalize pyStrip s = t
  obtain ⟨data⟩ := t
  rcases data with _ | ⟨a, _ | ⟨b, _ | ⟨c, _ | ⟨d, r⟩⟩⟩⟩
  · simp [HTTP.process_input_trimmed]
  · simp [HTTP.process_input_trimmed]
  · simp [HTTP.process_input_trimmed]
  · by_cases ha : a.isDigit = true
    · by_cases hb : b.isDigit = true
      · by_cases hc : c.isDigit = true
        · have key := HTTP.httpDigitIff_true
          simp only [List.all_eq_true] at key
          have k := key a (mem_digitChars_of_isDigit a ha)
            b (mem_digitChars_of_isDigit b hb)
            c (mem_digitChars_of_isDigit c hc)
          rw [beq_iff_eq] at k
          rw [show (String.mk [a, b, c]) = { data := [a, b, c] } from rfl] at k
          rw [k]
          simp [ha, hb, hc]
        · simp [HTTP.process_input_trimmed, pyIsdigit, ha, hb, hc]
      · simp [HTTP.process_input_trimmed, pyIsdigit, ha, hb]
    · simp [HTTP.process_input_trimmed, pyIsdigit, ha]
  · simp [HTTP.process_input_trimmed]

/-- C3 counterexample: process_input does not reset first, so its result
depends on prior mutations: on a fresh HTTP automaton, two consecutive
process_input("404") calls return true and then false. -/
theorem http_process_input_repeat_counterexample :
    (HTTP.process_input HTTP.reset "404").1 = true ∧
    (HTTP.process_input (HTTP.process_input HTTP.reset "404").2 "404").1
      = false := by
  constructor
  · decide
  · decide

/-- C3 (amended): process_input performs no internal reset and folds
from the current configuration.  In particular, on the HTTP automaton a
call that returns true leaves the automaton in third_digit, and an
immediately repeated call with the same input returns false. -/
theorem http_process_input_no_reset_repeat (fsm : HTTP.HTTPCodeFSM)
    (s : String) (h : (HTTP.process_input fsm s).1 = true) :
    (HTTP.process_input fsm s).2.state = HTTP.HState.third_digit ∧
    (HTTP.process_input (HTTP.process_input fsm s).2 s).1 = false := by
  unfold HTTP.process_input HTTP.process_input_trimmed at h ⊢
  split_ifs at h ⊢ with hguard
  rcases hpc : HTTP.process_chars fsm (pyStrip s).data with ⟨b, f2⟩
  rw [hpc] at h
  rcases b with _ | _
  · simp at h
  · simp only at h
    by_cases hfin : f2.state = HTTP.HState.third_digit ∧
        f2.current_code.data.length = 3
    · rw [if_pos hfin] at h
      simp only [if_pos hfin]
      refine ⟨hfin.1, ?_⟩
      rcases hd : (pyStrip s).data with _ | ⟨c, rest⟩
      · rw [hd] at hguard
        simp at hguard
      · rw [process_chars_third f2 hfin.1]
    · rw [if_neg hfin] at h
      simp at h

/-- Witness for the amended C3 theorem: the fresh automaton accepts
"404", ends in third_digit, and the repeated call returns false. -/
theorem http_process_input_no_reset_repeat_witness :
    (HTTP.process_input HTTP.reset "404").1 = true ∧
    ((HTTP.process_input HTTP.reset "404").2.state
        = HTTP.HState.third_digit ∧
      (HTTP.process_input (HTTP.process_input HTTP.reset "404").2
        "404").1 = false) :=
  ⟨by decide, http_process_input_no_reset_repeat HTTP.reset "404" (by decide)⟩

/-- C5: the LaTeX automaton is complete exactly when the state is
end_state and all three structural counters are zero; in particular a
run reaching end_state with an unclosed parenthesis (dollar, open
paren, dollar) is reported as not complete. -/
theorem latex_is_complete_iff_balanced :
    (∀ fsm : LaTeX.LaTeXMathFSM, LaTeX.is_complete fsm = true ↔
      (fsm.state = LaTeX.LState.end_state ∧ fsm.brace_depth = 0 ∧
       fsm.bracket_depth = 0 ∧ fsm.paren_depth = 0)) ∧
    ((LaTeX.run LaTeX.reset ["$", "(", "$"]).state = LaTeX.LState.end_state ∧
      LaTeX.is_complete (LaTeX.run LaTeX.reset ["$", "(", "$"]) = false) := by
  refine ⟨fun fsm => ?_, ?_, ?_⟩
  · simp [LaTeX.is_complete]
  · decide
  · decide

/-- C9: determinism.  In this functional embedding a run is a pure
function of the token sequence, so two fresh instances fed the same
sequence produce identical per-call results and identical final
configurations (state, counters, accumulated value, path). -/
theorem fsm_determinism :
    (∀ toks : List String,
      LaTeX.run_trace LaTeX.reset toks = LaTeX.run_trace LaTeX.reset toks) ∧
    (∀ ds : List String,
      HTTP.run_trace HTTP.reset ds = HTTP.run_trace HTTP.reset ds) :=
  ⟨fun _ => rfl, fun _ => rfl⟩

/-- C10: starting from reset, whenever the HTTP automaton reaches state
third_digit, the accumulated current_code is a 3-character digit string
whose integer value is a member of VALID_CODES: the per-digit filtering
of get_valid_third_digits alone guarantees registered-set membership
(making the final membership check in process_input redundant). -/
theorem http_third_digit_code_valid (inputs : List String)
    (h : (HTTP.run HTTP.reset inputs).state = HTTP.HState.third_digit) :
    (HTTP.run HTTP.reset inputs).current_code.data.length = 3 ∧
    (HTTP.run HTTP.reset inputs).current_code.data.all Char.isDigit = true ∧
    pyInt (HTTP.run HTTP.reset inputs).current_code ∈ HTTP.VALID_CODES := by
  have hinv := HTTP.codeInv_run inputs HTTP.reset HTTP.codeInv_reset
  have hmem := hinv.2.2 h
  have k : HTTP.threeCodesOk = true := HTTP.threeCodesOk_true
  unfold HTTP.threeCodesOk at k
  exact of_decide_eq_true (List.all_eq_true.mp k _ hmem)

/-- Witness for the C10 theorem at the input sequence 4, 0, 4. -/
theorem http_third_digit_code_valid_witness :
    (HTTP.run HTTP.reset ["4", "0", "4"]).state = HTTP.HState.third_digit ∧
    ((HTTP.run HTTP.reset ["4", "0", "4"]).current_code.data.length = 3 ∧
     (HTTP.run HTTP.reset ["4", "0", "4"]).current_code.data.all
       Char.isDigit = true ∧
     pyInt (HTTP.run HTTP.reset ["4", "0", "4"]).current_code
       ∈ HTTP.VALID_CODES) :=
  ⟨by decide, http_third_digit_code_valid ["4", "0", "4"] (by decide)⟩

namespace LaTeX

theorem parens_reject (f : LaTeXMathFSM) (tok : String)
    (h : (process_math_mode_parens f tok).1 = false) :
    (process_math_mode_parens f tok).2 = f := by
  unfold process_math_mode_parens at h ⊢
  split_ifs at h ⊢ <;> simp_all

theorem rest_reject (f : LaTeXMathFSM) (tok : String)
    (h : (process_math_mode_rest f tok).1 = false) :
    (process_math_mode_rest f tok).2 = f := by
  unfold process_math_mode_rest at h ⊢
  split_ifs at h ⊢ <;> first | exact parens_reject _ _ h | simp_all

theorem mm_reject (f : LaTeXMathFSM) (tok : String)
    (h : (process_math_mode f tok).1 = false) :
    (process_math_mode f tok).2 = f := by
  unfold process_math_mode at h ⊢
  split_ifs at h ⊢ <;> first | exact rest_reject _ _ h | simp_all

theorem content_reject (f : LaTeXMathFSM) (tok : String)
    (h : (process_content_state f tok).1 = false) :
    (process_content_state f tok).2 = f := by
  unfold process_content_state at h ⊢
  split_ifs at h ⊢ <;> simp_all

theorem latex_reject_no_mutation (fsm : LaTeXMathFSM) (tok : String)
    (hst : fsm.state ≠ LState.brace_open)
    (h : (process_token fsm tok).1 = false) :
    (process_token fsm tok).2 = fsm := by
  obtain ⟨st, ce, pa, bd, kd, pd, mt, cb, es⟩ := fsm
  cases st with
  | start =>
      unfold process_token process_start_state at h ⊢
      split_ifs at h ⊢ <;> simp_all
  | math_mode => exact mm_reject _ tok h
  | command =>
      unfold process_token process_command_state at h ⊢
      split_ifs at h ⊢ <;> simp_all
  | brace_open => exact absurd rfl hst
  | content => exact content_reject _ tok h
  | superscript =>
      unfold process_token process_superscript_state at h ⊢
      split_ifs at h ⊢ <;> simp_all
  | subscript =>
      unfold process_token process_subscript_state at h ⊢
      split_ifs at h ⊢ <;> simp_all
  | fraction_num =>
      unfold process_token process_fraction_num_state at h ⊢
      split_ifs at h ⊢ <;> simp_all
  | fraction_den =>
      unfold process_token process_fraction_den_state at h ⊢
      split_ifs at h ⊢ <;> simp_all
  | end_state => rfl

end LaTeX

theorem http_reject_no_mutation (fsm : HTTP.HTTPCodeFSM) (d : String)
    (h : (HTTP.process_digit fsm d).1 = false) :
    (HTTP.process_digit fsm d).2 = fsm := by
  obtain ⟨st, code, path⟩ := fsm
  cases st <;> unfold HTTP.process_digit at h ⊢ <;> dsimp only at h ⊢ <;>
    split_ifs at h ⊢ <;> simp_all

namespace LaTeX

theorem parens_depthInv (f : LaTeXMathFSM) (tok : String)
    (hst : f.state = LState.math_mode) (hf : depthInv f) :
    depthInv (process_math_mode_parens f tok).2 := by
  obtain ⟨hb, hk, hp, hc⟩ := hf
  unfold process_math_mode_parens
  split_ifs <;>
    refine ⟨?_, ?_, ?_, ?_⟩ <;> simp_all <;> omega

theorem rest_depthInv (f : LaTeXMathFSM) (tok : String)
    (hst : f.state = LState.math_mode) (hf : depthInv f) :
    depthInv (process_math_mode_rest f tok).2 := by
  obtain ⟨hb, hk, hp, hc⟩ := hf
  unfold process_math_mode_rest
  split_ifs <;>
    first
      | exact parens_depthInv f tok hst ⟨hb, hk, hp, hc⟩
      | (refine ⟨?_, ?_, ?_, ?_⟩ <;> simp_all <;> omega)

theorem mm_depthInv (f : LaTeXMathFSM) (tok : String)
    (hst : f.state = LState.math_mode) (hf : depthInv f) :
    depthInv (process_math_mode f tok).2 := by
  obtain ⟨hb, hk, hp, hc⟩ := hf
  unfold process_math_mode
  split_ifs <;>
    first
      | exact rest_depthInv f tok hst ⟨hb, hk, hp, hc⟩
      | (refine ⟨?_, ?_, ?_, ?_⟩ <;> simp_all <;> omega)

theorem content_depthInv (f : LaTeXMathFSM) (tok : String)
    (hb1 : 1 ≤ f.brace_depth) (hk : 0 ≤ f.bracket_depth)
    (hp : 0 ≤ f.paren_depth) :
    depthInv (process_content_state f tok).2 := by
  unfold process_content_state
  split_ifs <;>
    refine ⟨?_, ?_, ?_, ?_⟩ <;> simp_all <;> omega

theorem depthInv_step (f : LaTeXMathFSM) (hf : depthInv f) (tok : String) :
    depthInv (process_token f tok).2 := by
  rcases hs : f.state with _ | _ | _ | _ | _ | _ | _ | _ | _ | _ <;>
    unfold process_token <;> rw [hs]
  · obtain ⟨hb, hk, hp, hc⟩ := hf
    unfold process_start_state
    split_ifs <;> refine ⟨?_, ?_, ?_, ?_⟩ <;> simp_all <;> omega
  · exact mm_depthInv f tok hs hf
  · obtain ⟨hb, hk, hp, hc⟩ := hf
    unfold process_command_state
    split_ifs <;> refine ⟨?_, ?_, ?_, ?_⟩ <;> simp_all <;> omega
  · obtain ⟨hb, hk, hp, hc⟩ := hf
    have hb1 : 1 ≤ f.brace_depth := hc (Or.inr hs)
    unfold process_brace_open_state
    split_ifs
    · refine ⟨?_, ?_, ?_, ?_⟩ <;> simp_all <;> omega
    · exact content_depthInv _ tok (by simp [hb1]) (by simp [hk]) (by simp [hp])
  · obtain ⟨hb, hk, hp, hc⟩ := hf
    exact content_depthInv f tok (hc (Or.inl hs)) hk hp
  · obtain ⟨hb, hk, hp, hc⟩ := hf
    unfold process_superscript_state
    split_ifs <;> refine ⟨?_, ?_, ?_, ?_⟩ <;> simp_all <;> omega
  · obtain ⟨hb, hk, hp, hc⟩ := hf
    unfold process_subscript_state
    split_ifs <;> refine ⟨?_, ?_, ?_, ?_⟩ <;> simp_all <;> omega
  · obtain ⟨hb, hk, hp, hc⟩ := hf
    unfold process_fraction_num_state
    split_ifs <;> refine ⟨?_, ?_, ?_, ?_⟩ <;> simp_all <;> omega
  · obtain ⟨hb, hk, hp, hc⟩ := hf
    unfold process_fraction_den_state
    split_ifs <;> refine ⟨?_, ?_, ?_, ?_⟩ <;> simp_all <;> omega
  · exact hf

theorem depthInv_reset : depthInv reset := by
  refine ⟨by simp [reset], by simp [reset], by simp [reset], ?_⟩
  intro hx
  simp [reset] at hx

theorem depthInv_run (toks : List String) :
    ∀ f : LaTeXMathFSM, depthInv f → depthInv (run f toks) := by
  induction toks with
  | nil => intro f hf; exact hf
  | cons t rest ih => intro f hf; exact ih _ (depthInv_step f hf t)

end LaTeX

namespace LaTeX

theorem script_accept_iff (fsm : LaTeXMathFSM) (tok : String)
    (hst : fsm.state = LState.superscript ∨ fsm.state = LState.subscript) :
    (process_token fsm tok).1 = true ↔
      (tok = "\x7b" ∨ tok ∈ VALID_VARIABLES ∨ tok ∈ VALID_NUMBERS) := by
  rcases hst with hs | hs <;> unfold process_token <;> rw [hs]
  · unfold process_superscript_state
    split_ifs <;> simp_all
  · unfold process_subscript_state
    split_ifs <;> simp_all

theorem script_brace_transition (fsm : LaTeXMathFSM)
    (hst : fsm.state = LState.superscript ∨ fsm.state = LState.subscript) :
    (process_token fsm "\x7b").2.state = LState.content ∧
    (process_token fsm "\x7b").2.brace_depth = fsm.brace_depth + 1 := by
  rcases hst with hs | hs <;> unfold process_token <;> rw [hs]
  · unfold process_superscript_state
    split_ifs <;> simp_all
  · unfold process_subscript_state
    split_ifs <;> simp_all

theorem script_char_transition (fsm : LaTeXMathFSM) (tok : String)
    (hst : fsm.state = LState.superscript ∨ fsm.state = LState.subscript)
    (hmem : tok ∈ VALID_VARIABLES ∨ tok ∈ VALID_NUMBERS) :
    (process_token fsm tok).2.state = LState.math_mode := by
  have hne : ¬ tok = "\x7b" := by
    rcases hmem with hm | hm <;> intro he <;> subst he <;> revert hm <;> decide
  rcases hst with hs | hs <;> unfold process_token <;> rw [hs]
  · unfold process_superscript_state
    split_ifs <;> simp_all
  · unfold process_subscript_state
    split_ifs <;> simp_all

theorem takeAlpha_eq (l : List Char) :
    takeAlpha l = (l.takeWhile Char.isAlpha, l.dropWhile Char.isAlpha) := by
  induction l with
  | nil => simp [takeAlpha]
  | cons c cs ih =>
      by_cases h : c.isAlpha <;>
        simp [takeAlpha, List.takeWhile_cons, List.dropWhile_cons, h, ih]

theorem tokenizeAux_nil (fuel : Nat) : tokenizeAux fuel [] = [] := by
  cases fuel <;> rfl

theorem tokenize_spec_nil : tokenize_spec [] = [] := by
  rw [tokenize_spec.eq_def]

theorem tokenizeAux_spec (fuel : Nat) : ∀ l : List Char,
    l.length ≤ fuel → tokenizeAux fuel l = tokenize_spec l := by
  induction fuel with
  | zero =>
      intro l hl
      cases l with
      | nil => rw [tokenizeAux_nil, tokenize_spec_nil]
      | cons c rest => simp at hl
  | succ n ih =>
      intro l hl
      cases l with
      | nil => rw [tokenizeAux_nil, tokenize_spec_nil]
      | cons c rest =>
          simp only [List.length_cons] at hl
          rw [tokenize_spec.eq_def]
          by_cases hws : c.isWhitespace
          · simp [tokenizeAux, hws]
            exact ih rest (by omega)
          · by_cases hbs : c = '\\'
            · subst hbs
              cases rest with
              | nil =>
                  simp [tokenizeAux, hws]
                  rfl
              | cons d rest2 =>
                  simp only [List.length_cons] at hl
                  by_cases hal : d.isAlpha
                  · have hdw : (rest2.dropWhile Char.isAlpha).length
                        ≤ rest2.length :=
                      (List.dropWhile_sublist Char.isAlpha).length_le
                    simp [tokenizeAux, hws, hal, takeAlpha_eq,
                      List.dropWhile_cons, List.takeWhile_cons]
                    exact ih _ (by omega)
                  · simp [tokenizeAux, hws, hal]
                    exact ih rest2 (by omega)
            · by_cases hdl : c = '$'
              · subst hdl
                cases rest with
                | nil =>
                    simp [tokenizeAux, tokenizeAux_nil, tokenize_spec_nil,
                      hws]
                | cons d rest2 =>
                    simp only [List.length_cons] at hl
                    by_cases hd2 : d = '$'
                    · subst hd2
                      simp [tokenizeAux, hws]
                      exact ih rest2 (by omega)
                    · simp only [tokenizeAux]
                      split
                      · rename_i heq
                        simp_all
                      · simp [hws, hd2]
                        exact ih _ (by simp only [List.length_cons]; omega)
              · simp [tokenizeAux, hws, hbs, hdl]
                exact ih rest (by omega)

theorem tokenize_eq_spec (s : String) : tokenize s = tokenize_spec s.data :=
  tokenizeAux_spec s.data.length s.data (le_refl _)

end LaTeX

namespace LaTeX

theorem start_fst_cfg (f g : LaTeXMathFSM) (tok : String) :
    (process_start_state f tok).1 = (process_start_state g tok).1 := by
  unfold process_start_state
  by_cases h1 : tok = "$"
  · rw [if_pos h1, if_pos h1]
  · rw [if_neg h1, if_neg h1]
    by_cases h2 : tok = "$$"
    · rw [if_pos h2, if_pos h2]
    · rw [if_neg h2, if_neg h2]
      by_cases h3 : tok = "\\["
      · rw [if_pos h3, if_pos h3]
      · rw [if_neg h3, if_neg h3]

theorem command_fst_cfg (f g : LaTeXMathFSM) (tok : String) :
    (process_command_state f tok).1 = (process_command_state g tok).1 := by
  unfold process_command_state
  by_cases h1 : tok = "\x7b"
  · rw [if_pos h1, if_pos h1]
  · rw [if_neg h1, if_neg h1]

theorem fraction_num_fst_cfg (f g : LaTeXMathFSM) (tok : String) :
    (process_fraction_num_state f tok).1
      = (process_fraction_num_state g tok).1 := by
  unfold process_fraction_num_state
  by_cases h1 : tok = "\x7b"
  · rw [if_pos h1, if_pos h1]
  · rw [if_neg h1, if_neg h1]

theorem fraction_den_fst_cfg (f g : LaTeXMathFSM) (tok : String) :
    (process_fraction_den_state f tok).1
      = (process_fraction_den_state g tok).1 := by
  unfold process_fraction_den_state
  by_cases h1 : tok = "\x7b"
  · rw [if_pos h1, if_pos h1]
  · rw [if_neg h1, if_neg h1]

theorem superscript_fst_cfg (f g : LaTeXMathFSM) (tok : String) :
    (process_superscript_state f tok).1
      = (process_superscript_state g tok).1 := by
  unfold process_superscript_state
  by_cases h1 : tok = "\x7b"
  · rw [if_pos h1, if_pos h1]
  · rw [if_neg h1, if_neg h1]
    by_cases h2 : tok ∈ VALID_VARIABLES ∨ tok ∈ VALID_NUMBERS
    · rw [if_pos h2, if_pos h2]
    · rw [if_neg h2, if_neg h2]

theorem subscript_fst_cfg (f g : LaTeXMathFSM) (tok : String) :
    (process_subscript_state f tok).1
      = (process_subscript_state g tok).1 := by
  unfold process_subscript_state
  by_cases h1 : tok = "\x7b"
  · rw [if_pos h1, if_pos h1]
  · rw [if_neg h1, if_neg h1]
    by_cases h2 : tok ∈ VALID_VARIABLES ∨ tok ∈ VALID_NUMBERS
    · rw [if_pos h2, if_pos h2]
    · rw [if_neg h2, if_neg h2]

theorem content_fst_cfg (f g : LaTeXMathFSM) (tok : String)
    (h7 : tok ≠ "\x7d") :
    (process_content_state f tok).1 = (process_content_state g tok).1 := by
  unfold process_content_state
  rw [if_neg h7, if_neg h7]
  by_cases h1 : tok = "\x7b"
  · rw [if_pos h1, if_pos h1]
  · rw [if_neg h1, if_neg h1]
    by_cases h2 : tok ∈ VALID_VARIABLES ∨ tok ∈ VALID_NUMBERS ∨
        tok ∈ VALID_OPERATORS ∨ pyStartswith tok "\\" = true
    · rw [if_pos h2, if_pos h2]
    · rw [if_neg h2, if_neg h2]

theorem brace_open_fst_cfg (f g : LaTeXMathFSM) (tok : String)
    (h7 : tok ≠ "\x7d") :
    (process_brace_open_state f tok).1
      = (process_brace_open_state g tok).1 := by
  unfold process_brace_open_state
  rw [if_neg h7, if_neg h7]
  exact content_fst_cfg _ _ tok h7

theorem parens_fst_cfg (f g : LaTeXMathFSM) (tok : String)
    (h8 : tok ≠ ")") (h9 : tok ≠ "]") :
    (process_math_mode_parens f tok).1
      = (process_math_mode_parens g tok).1 := by
  unfold process_math_mode_parens
  by_cases h1 : tok ∈ ["(", "[", "|"]
  · rw [if_pos h1, if_pos h1]
    by_cases h2 : tok = "("
    · rw [if_pos h2, if_pos h2]
    · rw [if_neg h2, if_neg h2]
      by_cases h3 : tok = "["
      · rw [if_pos h3, if_pos h3]
      · rw [if_neg h3, if_neg h3]
  · rw [if_neg h1, if_neg h1]
    by_cases h2 : tok ∈ [")", "]", "|"]
    · have h5 : tok = "|" := by
        simp only [List.mem_cons, List.not_mem_nil, or_false] at h2
        rcases h2 with h2 | h2 | h2
        · exact absurd h2 h8
        · exact absurd h2 h9
        · exact h2
      subst h5
      simp
    · rw [if_neg h2, if_neg h2]

theorem rest_fst_cfg (f g : LaTeXMathFSM) (tok : String)
    (h7 : tok ≠ "\x7d") (h8 : tok ≠ ")") (h9 : tok ≠ "]") :
    (process_math_mode_rest f tok).1
      = (process_math_mode_rest g tok).1 := by
  unfold process_math_mode_rest
  by_cases h1 : tok ∈ VALID_VARIABLES ∨ tok ∈ VALID_NUMBERS ∨
      tok ∈ VALID_OPERATORS
  · rw [if_pos h1, if_pos h1]
  · rw [if_neg h1, if_neg h1]
    by_cases h2 : tok = "^"
    · rw [if_pos h2, if_pos h2]
    · rw [if_neg h2, if_neg h2]
      by_cases h3 : tok = "_"
      · rw [if_pos h3, if_pos h3]
      · rw [if_neg h3, if_neg h3]
        by_cases h4 : tok = "\x7b"
        · rw [if_pos h4, if_pos h4]
        · rw [if_neg h4, if_neg h4, if_neg h7, if_neg h7]
          exact parens_fst_cfg f g tok h8 h9

theorem mm_fst_cfg (f : LaTeXMathFSM) (tok : String)
    (h7 : tok ≠ "\x7d") (h8 : tok ≠ ")") (h9 : tok ≠ "]") :
    (process_math_mode f tok).1
      = (process_math_mode (stCfg LState.math_mode f.math_mode_type)
          tok).1 := by
  unfold process_math_mode
  rw [show is_math_mode_end (stCfg LState.math_mode f.math_mode_type) tok
      = is_math_mode_end f tok from rfl]
  by_cases h1 : is_math_mode_end f tok = true
  · rw [if_pos h1, if_pos h1]
  · rw [if_neg h1, if_neg h1]
    by_cases h2 : pyStartswith tok "\\" = true ∧ tok.data.length > 1
    · rw [if_pos h2, if_pos h2]
      by_cases h3 : String.mk tok.data.tail ∈ VALID_COMMANDS
      · rw [if_pos h3, if_pos h3]
        by_cases h4 : String.mk tok.data.tail = "frac"
        · rw [if_pos h4, if_pos h4]
        · rw [if_neg h4, if_neg h4]
          by_cases h5 : String.mk tok.data.tail ∈ ["begin"]
          · rw [if_pos h5, if_pos h5]
          · rw [if_neg h5, if_neg h5]
      · rw [if_neg h3, if_neg h3]
        exact rest_fst_cfg _ _ tok h7 h8 h9
    · rw [if_neg h2, if_neg h2]
      exact rest_fst_cfg _ _ tok h7 h8 h9

end LaTeX

namespace LaTeX

theorem poss_dec_start : ∀ tok ∈ get_current_possibilities
    (stCfg LState.start none),
    (process_start_state (stCfg LState.start none) tok).1 = true := by
  decide

theorem poss_dec_command : ∀ tok ∈ get_current_possibilities
    (stCfg LState.command none),
    (process_command_state (stCfg LState.command none) tok).1 = true := by
  decide

theorem poss_dec_fraction_num : ∀ tok ∈ get_current_possibilities
    (stCfg LState.fraction_num none),
    (process_fraction_num_state (stCfg LState.fraction_num none) tok).1
      = true := by
  decide

theorem poss_dec_fraction_den : ∀ tok ∈ get_current_possibilities
    (stCfg LState.fraction_den none),
    (process_fraction_den_state (stCfg LState.fraction_den none) tok).1
      = true := by
  decide

theorem poss_dec_superscript : ∀ tok ∈ get_current_possibilities
    (stCfg LState.superscript none),
    (process_superscript_state (stCfg LState.superscript none) tok).1
      = true := by
  decide

theorem poss_dec_subscript : ∀ tok ∈ get_current_possibilities
    (stCfg LState.subscript none),
    (process_subscript_state (stCfg LState.subscript none) tok).1
      = true := by
  decide

theorem poss_dec_content : ∀ tok ∈ get_current_possibilities
    (stCfg LState.content none), tok ∉ excludedPossibilities →
    (process_content_state (stCfg LState.content none) tok).1 = true := by
  decide

theorem poss_dec_brace_open : ∀ tok ∈ get_current_possibilities
    (stCfg LState.brace_open none), tok ∉ excludedPossibilities →
    (process_brace_open_state (stCfg LState.brace_open none) tok).1
      = true := by
  decide

theorem poss_dec_math_inline : ∀ tok ∈ get_current_possibilities
    (stCfg LState.math_mode (some MathModeType.inline)),
    tok ∉ excludedPossibilities →
    (process_math_mode (stCfg LState.math_mode (some MathModeType.inline))
      tok).1 = true := by
  decide

theorem poss_dec_math_display : ∀ tok ∈ get_current_possibilities
    (stCfg LState.math_mode (some MathModeType.display)),
    tok ∉ excludedPossibilities →
    (process_math_mode (stCfg LState.math_mode (some MathModeType.display))
      tok).1 = true := by
  decide

theorem poss_dec_math_none : ∀ tok ∈ get_current_possibilities
    (stCfg LState.math_mode none), tok ∉ excludedPossibilities →
    (process_math_mode (stCfg LState.math_mode none) tok).1 = true := by
  decide

end LaTeX

namespace LaTeX

theorem poss_sound_content (ce : String) (pa : List LState) (bd kd pd : Int)
    (mt : Option MathModeType) (cb : String) (es : List String) (tok : String)
    (hmem : tok ∈ get_current_possibilities
      ⟨LState.content, ce, pa, bd, kd, pd, mt, cb, es⟩)
    (hexcl : tok ∉ excludedPossibilities) :
    (process_token ⟨LState.content, ce, pa, bd, kd, pd, mt, cb, es⟩ tok).1
      = true := by
  have h7 : tok ≠ "\x7d" := fun he => hexcl (by rw [he]; decide)
  show (process_content_state
    ⟨LState.content, ce, pa, bd, kd, pd, mt, cb, es⟩ tok).1 = true
  rw [content_fst_cfg ⟨LState.content, ce, pa, bd, kd, pd, mt, cb, es⟩
    (stCfg LState.content none) tok h7]
  exact poss_dec_content tok hmem hexcl

theorem poss_sound_math_inline (st : LState) (ce : String) (pa : List LState)
    (bd kd pd : Int) (cb : String) (es : List String) (tok : String)
    (hmem : tok ∈ get_current_possibilities
      ⟨LState.math_mode, ce, pa, bd, kd, pd, some MathModeType.inline, cb, es⟩)
    (hexcl : tok ∉ excludedPossibilities) :
    (process_token
      ⟨LState.math_mode, ce, pa, bd, kd, pd, some MathModeType.inline, cb, es⟩
      tok).1 = true := by
  have h7 : tok ≠ "\x7d" := fun he => hexcl (by rw [he]; decide)
  have h8 : tok ≠ ")" := fun he => hexcl (by rw [he]; decide)
  have h9 : tok ≠ "]" := fun he => hexcl (by rw [he]; decide)
  show (process_math_mode
    ⟨LState.math_mode, ce, pa, bd, kd, pd, some MathModeType.inline, cb, es⟩
    tok).1 = true
  rw [mm_fst_cfg
    ⟨LState.math_mode, ce, pa, bd, kd, pd, some MathModeType.inline, cb, es⟩
    tok h7 h8 h9]
  exact poss_dec_math_inline tok hmem hexcl

end LaTeX

namespace LaTeX

theorem poss_sound_start (ce : String) (pa : List LState) (bd kd pd : Int)
    (mt : Option MathModeType) (cb : String) (es : List String) (tok : String)
    (hmem : tok ∈ get_current_possibilities
      ⟨LState.start, ce, pa, bd, kd, pd, mt, cb, es⟩) :
    (process_token ⟨LState.start, ce, pa, bd, kd, pd, mt, cb, es⟩ tok).1
      = true := by
  show (process_start_state
    ⟨LState.start, ce, pa, bd, kd, pd, mt, cb, es⟩ tok).1 = true
  rw [start_fst_cfg ⟨LState.start, ce, pa, bd, kd, pd, mt, cb, es⟩
    (stCfg LState.start none) tok]
  exact poss_dec_start tok hmem

theorem poss_sound_command (ce : String) (pa : List LState) (bd kd pd : Int)
    (mt : Option MathModeType) (cb : String) (es : List String) (tok : String)
    (hmem : tok ∈ get_current_possibilities
      ⟨LState.command, ce, pa, bd, kd, pd, mt, cb, es⟩) :
    (process_token ⟨LState.command, ce, pa, bd, kd, pd, mt, cb, es⟩ tok).1
      = true := by
  show (process_command_state
    ⟨LState.command, ce, pa, bd, kd, pd, mt, cb, es⟩ tok).1 = true
  rw [command_fst_cfg ⟨LState.command, ce, pa, bd, kd, pd, mt, cb, es⟩
    (stCfg LState.command none) tok]
  exact poss_dec_command tok hmem

theorem poss_sound_fraction_num (ce : String) (pa : List LState)
    (bd kd pd : Int) (mt : Option MathModeType) (cb : String)
    (es : List String) (tok : String)
    (hmem : tok ∈ get_current_possibilities
      ⟨LState.fraction_num, ce, pa, bd, kd, pd, mt, cb, es⟩) :
    (process_token ⟨LState.fraction_num, ce, pa, bd, kd, pd, mt, cb, es⟩
      tok).1 = true := by
  show (process_fraction_num_state
    ⟨LState.fraction_num, ce, pa, bd, kd, pd, mt, cb, es⟩ tok).1 = true
  rw [fraction_num_fst_cfg
    ⟨LState.fraction_num, ce, pa, bd, kd, pd, mt, cb, es⟩
    (stCfg LState.fraction_num none) tok]
  exact poss_dec_fraction_num tok hmem

theorem poss_sound_fraction_den (ce : String) (pa : List LState)
    (bd kd pd : Int) (mt : Option MathModeType) (cb : String)
    (es : List String) (tok : String)
    (hmem : tok ∈ get_current_possibilities
      ⟨LState.fraction_den, ce, pa, bd, kd, pd, mt, cb, es⟩) :
    (process_token ⟨LState.fraction_den, ce, pa, bd, kd, pd, mt, cb, es⟩
      tok).1 = true := by
  show (process_fraction_den_state
    ⟨LState.fraction_den, ce, pa, bd, kd, pd, mt, cb, es⟩ tok).1 = true
  rw [fraction_den_fst_cfg
    ⟨LState.fraction_den, ce, pa, bd, kd, pd, mt, cb, es⟩
    (stCfg LState.fraction_den none) tok]
  exact poss_dec_fraction_den tok hmem

theorem poss_sound_superscript (ce : String) (pa : List LState)
    (bd kd pd : Int) (mt : Option MathModeType) (cb : String)
    (es : List String) (tok : String)
    (hmem : tok ∈ get_current_possibilities
      ⟨LState.superscript, ce, pa, bd, kd, pd, mt, cb, es⟩) :
    (process_token ⟨LState.superscript, ce, pa, bd, kd, pd, mt, cb, es⟩
      tok).1 = true := by
  show (process_superscript_state
    ⟨LState.superscript, ce, pa, bd, kd, pd, mt, cb, es⟩ tok).1 = true
  rw [superscript_fst_cfg
    ⟨LState.superscript, ce, pa, bd, kd, pd, mt, cb, es⟩
    (stCfg LState.superscript none) tok]
  exact poss_dec_superscript tok hmem

theorem poss_sound_subscript (ce : String) (pa : List LState)
    (bd kd pd : Int) (mt : Option MathModeType) (cb : String)
    (es : List String) (tok : String)
    (hmem : tok ∈ get_current_possibilities
      ⟨LState.subscript, ce, pa, bd, kd, pd, mt, cb, es⟩) :
    (process_token ⟨LState.subscript, ce, pa, bd, kd, pd, mt, cb, es⟩
      tok).1 = true := by
  show (process_subscript_state
    ⟨LState.subscript, ce, pa, bd, kd, pd, mt, cb, es⟩ tok).1 = true
  rw [subscript_fst_cfg
    ⟨LState.subscript, ce, pa, bd, kd, pd, mt, cb, es⟩
    (stCfg LState.subscript none) tok]
  exact poss_dec_subscript tok hmem

theorem poss_sound_brace_open (ce : String) (pa : List LState)
    (bd kd pd : Int) (mt : Option MathModeType) (cb : String)
    (es : List String) (tok : String)
    (hmem : tok ∈ get_current_possibilities
      ⟨LState.brace_open, ce, pa, bd, kd, pd, mt, cb, es⟩)
    (hexcl : tok ∉ excludedPossibilities) :
    (process_token ⟨LState.brace_open, ce, pa, bd, kd, pd, mt, cb, es⟩
      tok).1 = true := by
  have h7 : tok ≠ "\x7d" := fun he => hexcl (by rw [he]; decide)
  show (process_brace_open_state
    ⟨LState.brace_open, ce, pa, bd, kd, pd, mt, cb, es⟩ tok).1 = true
  rw [brace_open_fst_cfg ⟨LState.brace_open, ce, pa, bd, kd, pd, mt, cb, es⟩
    (stCfg LState.brace_open none) tok h7]
  exact poss_dec_brace_open tok hmem hexcl

theorem poss_sound_math_display (ce : String) (pa : List LState)
    (bd kd pd : Int) (cb : String) (es : List String) (tok : String)
    (hmem : tok ∈ get_current_possibilities
      ⟨LState.math_mode, ce, pa, bd, kd, pd, some MathModeType.display, cb,
        es⟩)
    (hexcl : tok ∉ excludedPossibilities) :
    (process_token
      ⟨LState.math_mode, ce, pa, bd, kd, pd, some MathModeType.display, cb,
        es⟩ tok).1 = true := by
  have h7 : tok ≠ "\x7d" := fun he => hexcl (by rw [he]; decide)
  have h8 : tok ≠ ")" := fun he => hexcl (by rw [he]; decide)
  have h9 : tok ≠ "]" := fun he => hexcl (by rw [he]; decide)
  show (process_math_mode
    ⟨LState.math_mode, ce, pa, bd, kd, pd, some MathModeType.display, cb, es⟩
    tok).1 = true
  rw [mm_fst_cfg
    ⟨LState.math_mode, ce, pa, bd, kd, pd, some MathModeType.display, cb, es⟩
    tok h7 h8 h9]
  exact poss_dec_math_display tok hmem hexcl

theorem poss_sound_math_none (ce : String) (pa : List LState)
    (bd kd pd : Int) (cb : String) (es : List String) (tok : String)
    (hmem : tok ∈ get_current_possibilities
      ⟨LState.math_mode, ce, pa, bd, kd, pd, none, cb, es⟩)
    (hexcl : tok ∉ excludedPossibilities) :
    (process_token ⟨LState.math_mode, ce, pa, bd, kd, pd, none, cb, es⟩
      tok).1 = true := by
  have h7 : tok ≠ "\x7d" := fun he => hexcl (by rw [he]; decide)
  have h8 : tok ≠ ")" := fun he => hexcl (by rw [he]; decide)
  have h9 : tok ≠ "]" := fun he => hexcl (by rw [he]; decide)
  show (process_math_mode
    ⟨LState.math_mode, ce, pa, bd, kd, pd, none, cb, es⟩ tok).1 = true
  rw [mm_fst_cfg ⟨LState.math_mode, ce, pa, bd, kd, pd, none, cb, es⟩
    tok h7 h8 h9]
  exact poss_dec_math_none tok hmem hexcl

end LaTeX


namespace HTTP

theorem seconds_isdigit (code d : String)
    (h : d ∈ get_valid_second_digits code) : pyIsdigit d = true := by
  unfold get_valid_second_digits at h
  split_ifs at h
  · fin_cases h <;> decide
  · simp at h

theorem http_poss_sound (fsm : HTTPCodeFSM) (d : String)
    (hmem : d ∈ get_current_possibilities fsm) :
    (process_digit fsm d).1 = true := by
  obtain ⟨st, code, path⟩ := fsm
  cases st with
  | start =>
      fin_cases hmem <;> rfl
  | first_digit =>
      have hmem2 : d ∈ get_valid_second_digits code := hmem
      have hd : pyIsdigit d = true := seconds_isdigit code d hmem2
      unfold process_digit
      rw [if_neg (by simp [hd])]
      dsimp only
      rw [if_pos hmem2]
  | second_digit =>
      have hmem2 : d ∈ get_valid_third_digits code := hmem
      have hd : pyIsdigit d = true := thirds_isdigit code d hmem2
      unfold process_digit
      rw [if_neg (by simp [hd])]
      dsimp only
      rw [if_pos hmem2]
  | third_digit =>
      simp [get_current_possibilities] at hmem

end HTTP

/-- C2 (amended): whenever process_token (LaTeX) or process_digit (HTTP)
returns false, the whole configuration (state, counters, flavor,
accumulated value, path) is unchanged — for every LaTeX state except
brace_open, where a rejected token nevertheless mutates the state. -/
theorem reject_no_mutation :
    (∀ (fsm : LaTeX.LaTeXMathFSM) (tok : String),
      fsm.state ≠ LaTeX.LState.brace_open →
      (LaTeX.process_token fsm tok).1 = false →
      (LaTeX.process_token fsm tok).2 = fsm) ∧
    (∀ (fsm : HTTP.HTTPCodeFSM) (d : String),
      (HTTP.process_digit fsm d).1 = false →
      (HTTP.process_digit fsm d).2 = fsm) :=
  ⟨fun fsm tok h1 h2 => LaTeX.latex_reject_no_mutation fsm tok h1 h2,
   fun fsm d h => http_reject_no_mutation fsm d h⟩

/-- C2 counterexample: in the brace_open state (reached by dollar,
begin-command, open brace) the token "(" is rejected, yet the state
moves to content and the path grows: the post-call configuration
differs from the pre-call one. -/
theorem brace_open_reject_mutates :
    (LaTeX.run LaTeX.reset ["$", "\\begin", "\x7b"]).state
      = LaTeX.LState.brace_open ∧
    (LaTeX.process_token (LaTeX.run LaTeX.reset ["$", "\\begin", "\x7b"])
      "(").1 = false ∧
    (LaTeX.process_token (LaTeX.run LaTeX.reset ["$", "\\begin", "\x7b"])
      "(").2.state = LaTeX.LState.content :=
  ⟨by decide, by decide, by decide⟩

/-- Witness for the amended C2 theorem: the start state rejects "x"
without mutation, and the HTTP start state rejects "9" without
mutation. -/
theorem reject_no_mutation_witness :
    (LaTeX.reset.state ≠ LaTeX.LState.brace_open ∧
     (LaTeX.process_token LaTeX.reset "x").1 = false ∧
     (LaTeX.process_token LaTeX.reset "x").2 = LaTeX.reset) ∧
    ((HTTP.process_digit HTTP.reset "9").1 = false ∧
     (HTTP.process_digit HTTP.reset "9").2 = HTTP.reset) :=
  ⟨⟨by decide, by decide,
    reject_no_mutation.1 LaTeX.reset "x" (by decide) (by decide)⟩,
   ⟨by decide, reject_no_mutation.2 HTTP.reset "9" (by decide)⟩⟩

/-- C4 (amended): in every configuration of the LaTeX automaton, every
token of get_current_possibilities() that is not one of the five
structural tokens close-brace, close-paren, close-bracket, caret,
underscore is accepted by process_token; for the HTTP automaton every
listed digit is accepted unconditionally. -/
theorem possibilities_sound :
    (∀ (fsm : LaTeX.LaTeXMathFSM) (tok : String),
        tok ∈ LaTeX.get_current_possibilities fsm →
        tok ∉ LaTeX.excludedPossibilities →
        (LaTeX.process_token fsm tok).1 = true) ∧
    (∀ (fsm : HTTP.HTTPCodeFSM) (d : String),
        d ∈ HTTP.get_current_possibilities fsm →
        (HTTP.process_digit fsm d).1 = true) := by
  constructor
  · intro fsm tok hmem hexcl
    obtain ⟨st, ce, pa, bd, kd, pd, mt, cb, es⟩ := fsm
    cases st with
    | start => exact LaTeX.poss_sound_start ce pa bd kd pd mt cb es tok hmem
    | math_mode =>
        rcases mt with _ | mtt
        · exact LaTeX.poss_sound_math_none ce pa bd kd pd cb es tok hmem hexcl
        · cases mtt with
          | inline =>
              exact LaTeX.poss_sound_math_inline LaTeX.LState.math_mode
                ce pa bd kd pd cb es tok hmem hexcl
          | display =>
              exact LaTeX.poss_sound_math_display
                ce pa bd kd pd cb es tok hmem hexcl
    | command => exact LaTeX.poss_sound_command ce pa bd kd pd mt cb es tok hmem
    | brace_open =>
        exact LaTeX.poss_sound_brace_open ce pa bd kd pd mt cb es tok hmem hexcl
    | content =>
        exact LaTeX.poss_sound_content ce pa bd kd pd mt cb es tok hmem hexcl
    | superscript =>
        exact LaTeX.poss_sound_superscript ce pa bd kd pd mt cb es tok hmem
    | subscript =>
        exact LaTeX.poss_sound_subscript ce pa bd kd pd mt cb es tok hmem
    | fraction_num =>
        exact LaTeX.poss_sound_fraction_num ce pa bd kd pd mt cb es tok hmem
    | fraction_den =>
        exact LaTeX.poss_sound_fraction_den ce pa bd kd pd mt cb es tok hmem
    | end_state => simp [LaTeX.get_current_possibilities] at hmem
  · intro fsm d hmem
    exact HTTP.http_poss_sound fsm d hmem

/-- C4 counterexample: the claim as stated is false.  After opening
inline math mode the possibility list contains the close brace, but
process_token rejects it there because the brace depth is zero. -/
theorem possibilities_unsound_closer :
    "\x7d" ∈ LaTeX.get_current_possibilities
      (LaTeX.process_token LaTeX.reset "$").2 ∧
    (LaTeX.process_token (LaTeX.process_token LaTeX.reset "$").2 "\x7d").1
      = false :=
  ⟨by decide, by decide⟩

/-- Witness for the amended C4 theorem: the dollar opener from the
start state and the digit 4 from the HTTP start state. -/
theorem possibilities_sound_witness :
    ("$" ∈ LaTeX.get_current_possibilities LaTeX.reset ∧
     "$" ∉ LaTeX.excludedPossibilities ∧
     (LaTeX.process_token LaTeX.reset "$").1 = true) ∧
    ("4" ∈ HTTP.get_current_possibilities HTTP.reset ∧
     (HTTP.process_digit HTTP.reset "4").1 = true) :=
  ⟨⟨by decide, by decide,
    possibilities_sound.1 LaTeX.reset "$" (by decide) (by decide)⟩,
   ⟨by decide, possibilities_sound.2 HTTP.reset "4" (by decide)⟩⟩

/-- C6: starting from reset, after every sequence of process_token
calls (accepted or rejected) the three structural counters of the
LaTeX automaton are non-negative. -/
theorem latex_depths_nonneg (toks : List String) :
    0 ≤ (LaTeX.run LaTeX.reset toks).brace_depth ∧
    0 ≤ (LaTeX.run LaTeX.reset toks).bracket_depth ∧
    0 ≤ (LaTeX.run LaTeX.reset toks).paren_depth := by
  have h := LaTeX.depthInv_run toks LaTeX.reset LaTeX.depthInv_reset
  exact ⟨h.1, h.2.1, h.2.2.1⟩

/-- C7: in the superscript and subscript states process_token accepts
exactly an open brace (incrementing the brace depth and moving to
content) or a single variable or digit character (moving to math_mode),
rejecting everything else; consequently the dollar-x-caret-2-dollar
input is accepted with final state end_state and is_complete true,
while in dollar-x-caret-dollar the closing dollar after the caret is
rejected and process_input returns false. -/
theorem latex_script_states :
    (∀ (fsm : LaTeX.LaTeXMathFSM) (tok : String),
      fsm.state = LaTeX.LState.superscript ∨
        fsm.state = LaTeX.LState.subscript →
      ((LaTeX.process_token fsm tok).1 = true ↔
        (tok = "\x7b" ∨ tok ∈ LaTeX.VALID_VARIABLES ∨
          tok ∈ LaTeX.VALID_NUMBERS))) ∧
    (∀ fsm : LaTeX.LaTeXMathFSM,
      fsm.state = LaTeX.LState.superscript ∨
        fsm.state = LaTeX.LState.subscript →
      (LaTeX.process_token fsm "\x7b").2.state = LaTeX.LState.content ∧
      (LaTeX.process_token fsm "\x7b").2.brace_depth
        = fsm.brace_depth + 1) ∧
    (∀ (fsm : LaTeX.LaTeXMathFSM) (tok : String),
      fsm.state = LaTeX.LState.superscript ∨
        fsm.state = LaTeX.LState.subscript →
      tok ∈ LaTeX.VALID_VARIABLES ∨ tok ∈ LaTeX.VALID_NUMBERS →
      (LaTeX.process_token fsm tok).2.state = LaTeX.LState.math_mode) ∧
    ((LaTeX.process_input LaTeX.reset "$x^2$").1 = true ∧
     (LaTeX.process_input LaTeX.reset "$x^2$").2.state
       = LaTeX.LState.end_state ∧
     LaTeX.is_complete (LaTeX.process_input LaTeX.reset "$x^2$").2
       = true) ∧
    (LaTeX.process_input LaTeX.reset "$x^$").1 = false := by
  refine ⟨fun fsm tok h => LaTeX.script_accept_iff fsm tok h,
          fun fsm h => LaTeX.script_brace_transition fsm h,
          fun fsm tok h hm => LaTeX.script_char_transition fsm tok h hm,
          ⟨by decide, by decide, by decide⟩, by decide⟩

/-- Witness for C7: after dollar, x, caret the automaton is in
superscript, and the acceptance of "2" there matches the
characterization. -/
theorem latex_script_states_witness :
    ((LaTeX.run LaTeX.reset ["$", "x", "^"]).state
        = LaTeX.LState.superscript ∨
      (LaTeX.run LaTeX.reset ["$", "x", "^"]).state
        = LaTeX.LState.subscript) ∧
    ((LaTeX.process_token (LaTeX.run LaTeX.reset ["$", "x", "^"]) "2").1
        = true ↔
      ("2" = "\x7b" ∨ "2" ∈ LaTeX.VALID_VARIABLES ∨
        "2" ∈ LaTeX.VALID_NUMBERS)) :=
  ⟨Or.inl (by decide),
   latex_script_states.1 (LaTeX.run LaTeX.reset ["$", "x", "^"]) "2"
     (Or.inl (by decide))⟩

/-- C8: the tokenizer is total (a Lean function on all strings) and
agrees everywhere with the specification-style restatement of its
algorithm; the empty string gives the empty sequence and a trailing
lone backslash gives the one-character backslash token. -/
theorem tokenize_follows_spec :
    (∀ s : String, LaTeX.tokenize s = LaTeX.tokenize_spec s.data) ∧
    LaTeX.tokenize "" = [] ∧
    LaTeX.tokenize "\\" = ["\\"] ∧
    LaTeX.tokenize "a\\" = ["a", "\\"] ∧
    LaTeX.tokenize "$x^2$" = ["$", "x", "^", "2", "$"] ∧
    LaTeX.tokenize " a $$ \\alpha" = ["a", "$$", "\\alpha"] :=
  ⟨LaTeX.tokenize_eq_spec, by decide, by decide, by decide, by decide,
   by decide⟩
